import Mathlib

/-!
# A verification development for the `q2_micom` plugin glue code

This file gives a shallow embedding of the data-reshaping code of the
`q2_micom` package (`_build.py`, `_growth.py`, `plugin_setup.py`) and proves
properties of it.  Pandas/biom data frames are modelled as Lean lists of
records, float columns are modelled at rational precision by `MF` (a rational
together with `nan` and signed infinities, so that IEEE comparison and
division-by-zero behaviour is preserved), and the external `micom` library
functions (`micom.workflows.workflow`, `micom.workflows.grow`,
`micom.Community`) are taken as function parameters, since their internals are
outside the package.
-/

namespace Q2Micom

/-- Model of an IEEE floating-point value at rational precision: `nan`, a
signed infinity, or a finite rational.  Float columns of pandas frames are
modelled with this type; every comparison involving `nan` is false, as in
IEEE semantics. -/
inductive MF where
  | nan : MF
  | inf : MF
  | ninf : MF
  | fin : ℚ → MF
deriving DecidableEq

/-- `pd.notna` is false exactly on `nan`; this is its Boolean complement. -/
def MF.isNan : MF → Bool
  | .nan => true
  | _ => false

/-- The elementwise float comparison `x > c` against a finite float `c`:
`nan > c` is false, `inf > c` is true, `-inf > c` is false. -/
def MF.gtB : MF → ℚ → Bool
  | .nan, _ => false
  | .inf, _ => true
  | .ninf, _ => false
  | .fin q, c => decide (c < q)

/-- Float division of finite floats `a / d`: for `d = 0` it produces `nan`
when `a = 0` and a signed infinity otherwise, as pandas (numpy) division
does; for `d ≠ 0` it is exact rational division. -/
def relDiv (a d : ℚ) : MF :=
  if d = 0 then (if a = 0 then MF.nan else if 0 < a then MF.inf else MF.ninf)
  else MF.fin (a / d)

/-- `RANKS` from `q2_micom/_build.py`: the seven taxonomy column names, in
order. -/
def RANKS : List String :=
  ["kingdom", "phylum", "class", "order", "family", "genus", "species"]

/-- Position of a rank name among the seven taxonomy columns. -/
def rankIndex (rank : String) : Nat := RANKS.indexOf rank

/-- A regex `\w` word character: alphanumeric or underscore. -/
def isWordChar (c : Char) : Bool := c.isAlphanum || c == '_'

/-- A regex `\s` whitespace character. -/
def isSpaceChar (c : Char) : Bool :=
  c == ' ' || c == '\t' || c == '\n' || c == '\r' || c == '\x0b' || c == '\x0c'

/-- `re.sub("\w__", "", s)` on the character list of `s`: scan left to
right; whenever a word character followed by two underscores matches, drop
the three characters and continue after the match, otherwise keep the head
character.  This is `taxonomy.str.replace("\\w__", "")` (old-pandas default
`regex=True`). -/
def removeTags : List Char → List Char
  | [] => []
  | [c] => [c]
  | [c, c2] => [c, c2]
  | c :: c2 :: c3 :: rest =>
    if isWordChar c && c2 == '_' && c3 == '_' then removeTags rest
    else c :: removeTags (c2 :: c3 :: rest)

/-- `re.split(";\s*", s)` on the character list of `s`.  The Boolean flag is
true while consuming the greedy `\s*` tail of a separator match just seen. -/
def splitTax : List Char → Bool → List (List Char)
  | [], _ => [[]]
  | c :: rest, skip =>
    if skip && isSpaceChar c then splitTax rest true
    else if c == ';' then [] :: splitTax rest true
    else
      match splitTax rest false with
      | [] => [[c]]
      | h :: t => (c :: h) :: t

/-- The processed taxonomy columns of one taxonomy string: strip the rank
tags matching `\w__`, then split on `;` followed by optional whitespace
(`taxa = taxonomy.str.replace("\\w__", ""); taxa = taxa.str.split(";\s*",
expand=True)`). -/
def taxaParts (s : String) : List String :=
  (splitTax (removeTags s.data) false).map (fun l => String.mk l)

/-- The taxonomy `pd.Series`: pairs of feature id (index) and taxonomy
string. -/
abbrev TaxSeries := List (String × String)

/-- `taxa.loc[id_, rank]`: the entry of the processed taxonomy frame at row
`obsId` and column `rank` (the columns having been named by `RANKS`). -/
def taxLabel (taxonomy : TaxSeries) (rank : String) (obsId : String) : String :=
  (taxaParts ((taxonomy.lookup obsId).getD "")).getD (rankIndex rank) ""

/-- A `biom.Table`: observation ids, sample ids, and the count matrix. -/
structure BiomTable where
  obsIds : List String
  sampleIds : List String
  counts : String → String → ℚ

/-- The distinct collapse bins produced by
`abundance.collapse(lambda id_, x: taxa.loc[id_, rank], axis="observation")`:
the distinct rank labels of the observations. -/
def collapseLabels (t : BiomTable) (taxonomy : TaxSeries) (rank : String) : List String :=
  (t.obsIds.map (taxLabel taxonomy rank)).dedup

/-- The observations collapsed into the bin `lab`. -/
def collapseGroup (t : BiomTable) (taxonomy : TaxSeries) (rank : String) (lab : String) :
    List String :=
  t.obsIds.filter (fun o => taxLabel taxonomy rank o == lab)

/-- The collapsed count for bin `lab` in sample `s`: `biom.Table.collapse`
reduces each bin with the group sum and, with its default `norm=True`,
divides by the bin size. -/
def collapsedValue (t : BiomTable) (taxonomy : TaxSeries) (rank : String)
    (lab : String) (s : String) : ℚ :=
  let g := collapseGroup t taxonomy rank lab
  ((g.map (fun o => t.counts o s)).sum) / (g.length : ℚ)

/-- A row of the melted abundance frame before the `relative` column is
added: `sample_id`, the rank-named column, and `abundance`. -/
structure RawRow where
  sample_id : String
  label : String
  abundance : ℚ
deriving DecidableEq

/-- The melted long-form abundance frame
(`abundance.melt(id_vars="sample_id", var_name=rank,
value_name="abundance")`): one row per collapse bin and sample. -/
def meltedRaw (t : BiomTable) (taxonomy : TaxSeries) (rank : String) : List RawRow :=
  (collapseLabels t taxonomy rank).flatMap
    (fun lab => t.sampleIds.map
      (fun s => ⟨s, lab, collapsedValue t taxonomy rank lab s⟩))

/-- `depth = abundance.groupby("sample_id").abundance.sum()` evaluated at a
sample id. -/
def depthOf (rows : List RawRow) (s : String) : ℚ :=
  ((rows.filter (fun r => r.sample_id == s)).map (fun r => r.abundance)).sum

/-- A row of the melted abundance frame after
`abundance["relative"] = abundance.abundance / depth[abundance.sample_id]`. -/
structure AbRow where
  sample_id : String
  label : String
  abundance : ℚ
  relative : MF
deriving DecidableEq

/-- The melted abundance frame with the `relative` column. -/
def melted (t : BiomTable) (taxonomy : TaxSeries) (rank : String) : List AbRow :=
  let raw := meltedRaw t taxonomy rank
  raw.map (fun r => ⟨r.sample_id, r.label, r.abundance,
    relDiv r.abundance (depthOf raw r.sample_id)⟩)

/-- A row of the model-database manifest frame: the model id, the seven rank
columns in `RANKS` order, and the `file` column. -/
structure ModelRow where
  id : String
  taxa : List String
  file : String
deriving DecidableEq

/-- The `SBMLDirectory` artifact: the manifest viewed as a data frame and
`models.sbml_files.path_maker`. -/
structure SBMLDirectory where
  manifest : List ModelRow
  pathMaker : String → String

/-- `model_files["file"] = model_files.id.apply(lambda i:
models.sbml_files.path_maker(model_id=i))`. -/
def withFiles (models : SBMLDirectory) : List ModelRow :=
  models.manifest.map (fun r => ⟨r.id, r.taxa, models.pathMaker r.id⟩)

/-- The value of the rank column of a manifest row (the groupby / merge
key). -/
def mkey (rank : String) (r : ModelRow) : String := r.taxa.getD (rankIndex rank) ""

/-- `reduce_group` from `q2_micom/_build.py`: the first row of the group,
with its `file` column replaced by the `"|"`-joined files of the whole
group. -/
def reduce_group (df : List ModelRow) : ModelRow :=
  match df with
  | [] => ⟨"", [], ""⟩
  | r :: _ => ⟨r.id, r.taxa, String.intercalate "|" (df.map (fun x => x.file))⟩

/-- The group keys of `model_files.groupby(rank)`: the distinct rank values,
sorted (pandas `groupby` sorts group keys by default). -/
def groupKeys (rank : String) (rows : List ModelRow) : List String :=
  ((rows.map (mkey rank)).dedup).mergeSort (fun a b => decide (a ≤ b))

/-- `model_files.groupby(rank).apply(reduce_group).reset_index(drop=True)`:
one collapsed row per distinct rank value, each group taken in its original
row order. -/
def collapsedModelFiles (models : SBMLDirectory) (rank : String) : List ModelRow :=
  (groupKeys rank (withFiles models)).map
    (fun k => reduce_group ((withFiles models).filter (fun r => mkey rank r == k)))

/-- A row of `pd.merge(model_files, abundance, on=rank)`: the model-file
columns together with the melted-abundance columns. -/
structure SpecRow where
  id : String
  taxa : List String
  file : String
  sample_id : String
  abundance : ℚ
  relative : MF
deriving DecidableEq

/-- The merged row built from a model-file row and a melted abundance row
that agree on the rank column. -/
def mergeRow (m : ModelRow) (a : AbRow) : SpecRow :=
  ⟨m.id, m.taxa, m.file, a.sample_id, a.abundance, a.relative⟩

/-- `pd.merge(model_files, abundance, on=rank)`: an inner join, pairing
every collapsed model-file row with every melted abundance row that has the
same rank value. -/
def mergedSpec (t : BiomTable) (taxonomy : TaxSeries) (models : SBMLDirectory)
    (rank : String) : List SpecRow :=
  (collapsedModelFiles models rank).flatMap
    (fun m => (melted t taxonomy rank).filterMap
      (fun a => if mkey rank m == a.label then some (mergeRow m a) else none))

/-- `build_spec` from `q2_micom/_build.py`: merge the model database with
the melted relative abundances and keep the rows with
`micom_taxonomy.relative > cutoff`. -/
def build_spec (t : BiomTable) (taxonomy : TaxSeries) (models : SBMLDirectory)
    (rank : String) (cutoff : ℚ) : List SpecRow :=
  (mergedSpec t taxonomy models rank).filter (fun r => MF.gtB r.relative cutoff)

/-- One element of the `args` list that `build` hands to
`micom.workflows.workflow`: a sample id, the rows of the specification for
that sample, and the output pickle path. -/
structure BuildArg where
  sample_id : String
  spec : List SpecRow
  out : String

/-- The `args` list of `build`: one entry per distinct sample id of the
specification, with that sample's rows and its output path. -/
def buildArgs (tax : List SpecRow) (outPath : String → String) : List BuildArg :=
  ((tax.map (fun r => r.sample_id)).dedup).map
    (fun s => ⟨s, tax.filter (fun r => r.sample_id == s), outPath s⟩)

/-- `build` from `q2_micom/_build.py`.  The external
`micom.workflows.workflow` batch runner and the `build_and_save` worker
(whose body only calls the external `micom.Community` constructor and
pickler) are taken as parameters; writing the pickle files and the manifest
CSV is modelled by returning the workflow result together with the
specification frame that is written as the manifest. -/
def build {π μ : Type} (workflowRun : (BuildArg → π) → List BuildArg → Nat → μ)
    (build_and_save : BuildArg → π) (outPath : String → String)
    (t : BiomTable) (taxonomy : TaxSeries) (models : SBMLDirectory)
    (rank : String) (threads : Nat) (cutoff : ℚ) : μ × List SpecRow :=
  let tax := build_spec t taxonomy models rank cutoff
  (workflowRun build_and_save (buildArgs tax outPath) threads, tax)

/-- The `CommunityModelDirectory` artifact as `grow` sees it: the manifest
viewed as a data frame and `models.model_files.path_maker`. -/
structure CommunityModelDirectory where
  manifest : List SpecRow
  pathMaker : String → String

/-- A row of the exchange-flux frame returned by `micom.workflows.grow`. -/
structure ExchangeRow where
  sample_id : String
  taxon : String
  metabolite : String
  flux : MF
deriving DecidableEq

/-- The `MicomResultsDirectory` written by `grow`: the growth-rates CSV and
the exchange-fluxes parquet.  The growth-rates frame is opaque to this
package, hence the type parameter. -/
structure MicomResults (γ : Type) where
  growth_rates : γ
  exchange_fluxes : List ExchangeRow

/-- The growth medium frame: metabolite ids with their flux bounds. -/
abbrev Medium := List (String × ℚ)

/-- The type of the external `micom.workflows.grow`: it receives the
manifest frame, the model folder, the medium, the tradeoff, and the thread
count, and returns the growth-rates frame and the exchange frame. -/
abbrev MwGrow (γ : Type) := List SpecRow → String → Medium → ℚ → Nat → γ × List ExchangeRow

/-- `str(models.model_files.path_maker(model_id="blub")).replace(
"blub.pickle", "")`. -/
def model_folder (models : CommunityModelDirectory) : String :=
  (models.pathMaker "blub").replace "blub.pickle" ""

/-- `grow` from `q2_micom/_growth.py`, with the external
`micom.workflows.grow` as a parameter: view the manifest, call the external
routine, write the growth rates unchanged, and write the exchange rows
restricted to `exchanges[pd.notna(exchanges.flux)]`. -/
def grow {γ : Type} (mwGrow : MwGrow γ) (models : CommunityModelDirectory)
    (medium : Medium) (tradeoff : ℚ) (threads : Nat) : MicomResults γ :=
  let manifest := models.manifest
  let p := mwGrow manifest (model_folder models) medium tradeoff threads
  ⟨p.1, p.2.filter (fun r => !r.flux.isNan)⟩

/-- A qiime2 `Range` predicate over float scalars. -/
structure QRange where
  lo : ℚ
  hi : ℚ
  incStart : Bool
  incEnd : Bool

/-- The qiime2 `Range(lo, hi, inclusive_start, inclusive_end)` constructor;
qiime2 defaults are `inclusive_start=True`, `inclusive_end=False`, so call
sites that omit a flag are written here with that default made explicit. -/
def Range (lo hi : ℚ) (incStart incEnd : Bool) : QRange := ⟨lo, hi, incStart, incEnd⟩

/-- Membership in a qiime2 `Range`. -/
def QRange.mem (r : QRange) (x : ℚ) : Bool :=
  (if r.incStart then decide (r.lo ≤ x) else decide (r.lo < x)) &&
  (if r.incEnd then decide (x ≤ r.hi) else decide (x < r.hi))

/-- The schema of the `tradeoff` parameter of `grow` in `plugin_setup.py`:
`Float % Range(0.0, 1.0, inclusive_start=False, inclusive_end=True)`. -/
def grow_tradeoff_range : QRange := Range 0 1 false true

/-- The schema of `tradeoff_min` of the tradeoff sweep in `plugin_setup.py`:
`Float % Range(0.0, 1.0, inclusive_start=False)` with the default
`inclusive_end=False`. -/
def tradeoff_min_range : QRange := Range 0 1 false false

/-- The schema of `tradeoff_max` of the tradeoff sweep in `plugin_setup.py`:
`Float % Range(0.0, 1.0, inclusive_end=True)` with the default
`inclusive_start=True`. -/
def tradeoff_max_range : QRange := Range 0 1 true true

/-- The parameters of the Python function `q2_micom.build` (`_build.py`),
in order. -/
def build_function_params : List String :=
  ["abundance", "taxonomy", "models", "rank", "threads", "cutoff"]

/-- The input names registered for `q2_micom.build` in `plugin_setup.py`. -/
def build_registered_inputs : List String :=
  ["abundance", "taxonomy", "models", "medium"]

/-- The parameter names registered for `q2_micom.build` in
`plugin_setup.py`. -/
def build_registered_params : List String := ["rank", "threads", "cutoff"]

/-- The parameters of the Python function `q2_micom.grow` (`_growth.py`),
in order. -/
def grow_function_params : List String := ["models", "medium", "tradeoff", "threads"]

/-- The input names registered for `q2_micom.grow` in `plugin_setup.py`. -/
def grow_registered_inputs : List String := ["models"]

/-- The parameter names registered for `q2_micom.grow` in
`plugin_setup.py`. -/
def grow_registered_params : List String := ["tradeoff", "threads"]

/-! ### Concrete fixtures used by the witnesses -/

/-- A one-row taxonomy series whose string has the seven rank tags. -/
def tax0 : TaxSeries := [("t1", "k__B;p__F;c__C;o__O;f__L;g__G;s__S")]

/-- A one-observation, one-sample table with count 1. -/
def ab1 : BiomTable := ⟨["t1"], ["s1"], fun _ _ => 1⟩

/-- A one-observation, one-sample table whose counts are all zero. -/
def abZ : BiomTable := ⟨["t1"], ["s1"], fun _ _ => 0⟩

/-- A one-model database whose genus column matches `tax0`. -/
def md1 : SBMLDirectory := ⟨[⟨"m1", ["B", "F", "C", "O", "L", "G", "S"], ""⟩],
  fun i => i ++ ".xml"⟩

/-- An empty community-model directory. -/
def cm0 : CommunityModelDirectory := ⟨[], fun i => i ++ ".pickle"⟩

/-- A merged row whose relative abundance is exactly zero. -/
def row0 : SpecRow := ⟨"m1", ["B", "F", "C", "O", "L", "G", "S"], "m1.xml", "s1", 1, MF.fin 0⟩

/-- A workflow runner that only reports its thread count. -/
def wf0 : (BuildArg → Unit) → List BuildArg → Nat → Nat := fun _ _ th => th

/-- A workflow runner equal to `wf0` at three threads only. -/
def wf1 : (BuildArg → Unit) → List BuildArg → Nat → Nat :=
  fun _ _ th => if th = 3 then th else 0

/-- A trivial stand-in for `build_and_save`. -/
def bas0 : BuildArg → Unit := fun _ => ()

/-- An external grow routine that only reports its thread count. -/
def f0 : MwGrow Nat := fun _ _ _ _ th => (th, [])

/-- An external grow routine equal to `f0` at three threads only. -/
def g0 : MwGrow Nat := fun _ _ _ _ th => (if th = 3 then th else 0, [])

/-! ### Helper lemmas -/

/-- Distributing a rational division over a list sum. -/
theorem sum_map_div (l : List ℚ) (d : ℚ) : (l.map (fun x => x / d)).sum = l.sum / d := by
  induction l with
  | nil => simp
  | cons x xs ih => simp [ih, add_div]

/-- A list of nonnegative rationals with sum zero is all zeros. -/
theorem eq_zero_of_sum_nonneg (l : List ℚ) (h : ∀ x ∈ l, 0 ≤ x) (h0 : l.sum = 0) :
    ∀ x ∈ l, x = 0 := by
  induction l with
  | nil => simp
  | cons a tl ih =>
    have ha : 0 ≤ a := h a (by simp)
    have ht : ∀ x ∈ tl, 0 ≤ x := fun x hx => h x (by simp [hx])
    have hts : 0 ≤ tl.sum := List.sum_nonneg ht
    rw [List.sum_cons] at h0
    have ha0 : a = 0 := by linarith
    have htl0 : tl.sum = 0 := by linarith
    intro x hx
    rcases List.mem_cons.mp hx with hx | hx
    · exact hx.trans ha0
    · exact ih ht htl0 x hx

/-- Filtering a duplicate-free list for one of its members yields exactly
that member. -/
theorem nodup_filter_beq {l : List String} (hn : l.Nodup) {k : String} (hk : k ∈ l) :
    l.filter (fun x => x == k) = [k] := by
  induction l with
  | nil => cases hk
  | cons a tl ih =>
    rcases List.nodup_cons.mp hn with ⟨ha, ht⟩
    by_cases hak : a = k
    · subst hak
      have hnil : tl.filter (fun x => x == a) = [] := by
        rw [List.filter_eq_nil_iff]
        intro x hx hbeq
        exact ha ((beq_iff_eq.mp hbeq) ▸ hx)
      simp [List.filter_cons, hnil]
    · have hk2 : k ∈ tl := by
        rcases List.mem_cons.mp hk with h | h
        · exact absurd h.symm hak
        · exact h
      simp [List.filter_cons, hak, ih ht hk2]

/-- `pd.notna` on a float: true exactly away from `nan`. -/
theorem isNan_false_iff (x : MF) : x.isNan = false ↔ x ≠ MF.nan := by
  cases x <;> simp [MF.isNan]

/-! ### The claims -/

/-- C1: a merged row appears in the result of `build_spec` iff its relative
abundance passes the cutoff filter, and the comparison is strict, so a row
whose relative abundance equals the cutoff exactly is excluded. -/
theorem build_spec_cutoff_strict (t : BiomTable) (taxonomy : TaxSeries)
    (models : SBMLDirectory) (rank : String) (cutoff : ℚ) (r : SpecRow) :
    (r ∈ build_spec t taxonomy models rank cutoff ↔
      r ∈ mergedSpec t taxonomy models rank ∧ MF.gtB r.relative cutoff = true) ∧
    (r.relative = MF.fin cutoff → r ∉ build_spec t taxonomy models rank cutoff) := by
  constructor
  · simp [build_spec, List.mem_filter]
  · intro heq hmem
    have hgt := (List.mem_filter.mp hmem).2
    rw [heq] at hgt
    simp [MF.gtB] at hgt

/-- C1 witness: a concrete merged row with relative abundance exactly equal
to the cutoff is not in the returned specification. -/
theorem build_spec_cutoff_strict_witness :
    row0.relative = MF.fin 0 ∧ row0 ∉ build_spec ab1 tax0 md1 "genus" 0 :=
  ⟨rfl, (build_spec_cutoff_strict ab1 tax0 md1 "genus" 0 row0).2 rfl⟩

/-- C3 counterexample: the claim that all three tradeoff-valued schemas
admit exactly `(0, 1]` fails: `tradeoff_max` accepts `0.0` and
`tradeoff_min` rejects `1.0`. -/
theorem tradeoff_ranges_not_all_halfopen :
    QRange.mem tradeoff_max_range 0 = true ∧ QRange.mem tradeoff_min_range 1 = false := by
  decide

/-- C3 (amended): the `tradeoff` parameter of `grow` admits exactly
`(0, 1]`; `tradeoff_min` admits exactly the open interval `(0, 1)`; and
`tradeoff_max` admits exactly the closed interval `[0, 1]`. -/
theorem tradeoff_ranges_exact (x : ℚ) :
    (QRange.mem grow_tradeoff_range x = true ↔ 0 < x ∧ x ≤ 1) ∧
    (QRange.mem tradeoff_min_range x = true ↔ 0 < x ∧ x < 1) ∧
    (QRange.mem tradeoff_max_range x = true ↔ 0 ≤ x ∧ x ≤ 1) := by
  simp [QRange.mem, grow_tradeoff_range, tradeoff_min_range, tradeoff_max_range, Range]

/-- C4: the build registration lists a `medium` input that is not a
parameter of the Python function `build`, while `grow` has a `medium`
parameter that its registration does not list, so registered schemas and
function signatures do not correspond. -/
theorem build_registration_medium_mismatch :
    ("medium" ∈ build_registered_inputs ∧ "medium" ∉ build_function_params) ∧
    ("medium" ∈ grow_function_params ∧
      "medium" ∉ grow_registered_inputs ++ grow_registered_params) := by
  decide

/-- C5: instrumenting the external simulation routine shows that `grow`
passes it exactly the manifest viewed from the model directory, the model
folder, the unaltered medium, the unaltered tradeoff, and the thread
count. -/
theorem grow_passes_args_unchanged (models : CommunityModelDirectory)
    (medium : Medium) (tradeoff : ℚ) (threads : Nat) :
    (grow (fun man folder med tr th => ((man, folder, med, tr, th), []))
        models medium tradeoff threads).growth_rates =
      (models.manifest, model_folder models, medium, tradeoff, threads) := rfl

/-- C9: the growth-rates output of `grow` is the external routine's first
result unchanged, and the exchange-fluxes output holds exactly the exchange
rows whose flux is not `nan`. -/
theorem grow_outputs {γ : Type} (f : MwGrow γ) (models : CommunityModelDirectory)
    (medium : Medium) (tradeoff : ℚ) (threads : Nat) :
    (grow f models medium tradeoff threads).growth_rates =
      (f models.manifest (model_folder models) medium tradeoff threads).1 ∧
    (∀ r : ExchangeRow,
      r ∈ (grow f models medium tradeoff threads).exchange_fluxes ↔
        r ∈ (f models.manifest (model_folder models) medium tradeoff threads).2 ∧
          r.flux ≠ MF.nan) := by
  refine ⟨rfl, fun r => ?_⟩
  simp [grow, List.mem_filter, isNan_false_iff]

/-- C2: each melted row's relative abundance is its abundance divided by
its sample's total abundance, and for a sample with nonzero total the
relative abundances of that sample's rows (before cutoff filtering) sum
to 1. -/
theorem relative_is_share_and_sums_to_one (t : BiomTable) (taxonomy : TaxSeries)
    (rank : String) (s : String)
    (hd : depthOf (meltedRaw t taxonomy rank) s ≠ 0) :
    (∀ r ∈ melted t taxonomy rank, r.sample_id = s →
      r.relative = MF.fin (r.abundance / depthOf (meltedRaw t taxonomy rank) s)) ∧
    (((melted t taxonomy rank).filter (fun r => r.sample_id == s)).map
      (fun r => r.abundance / depthOf (meltedRaw t taxonomy rank) s)).sum = 1 := by
  constructor
  · intro r hr hs
    simp only [melted] at hr
    obtain ⟨r0, hr0, rfl⟩ := List.mem_map.mp hr
    dsimp only at hs ⊢
    rw [hs]
    unfold relDiv
    rw [if_neg hd]
  · have hcomm : ((melted t taxonomy rank).filter (fun r => r.sample_id == s)).map
        (fun r => r.abundance) =
        ((meltedRaw t taxonomy rank).filter (fun r => r.sample_id == s)).map
          (fun r => r.abundance) := by
      simp only [melted]
      rw [List.filter_map, List.map_map]
      rfl
    have hmm : ((melted t taxonomy rank).filter (fun r => r.sample_id == s)).map
        (fun r => r.abundance / depthOf (meltedRaw t taxonomy rank) s) =
        (((melted t taxonomy rank).filter (fun r => r.sample_id == s)).map
          (fun r => r.abundance)).map
          (fun x => x / depthOf (meltedRaw t taxonomy rank) s) := by
      rw [List.map_map]
      rfl
    rw [hmm, hcomm, sum_map_div]
    exact div_self hd

/-- C2 witness: a concrete table with one observation of count one in one
sample has nonzero depth and relative abundances summing to one. -/
theorem relative_is_share_and_sums_to_one_witness :
    depthOf (meltedRaw ab1 tax0 "genus") "s1" ≠ 0 ∧
    (((melted ab1 tax0 "genus").filter (fun r => r.sample_id == "s1")).map
      (fun r => r.abundance / depthOf (meltedRaw ab1 tax0 "genus") "s1")).sum = 1 :=
  ⟨by simp [depthOf, meltedRaw, collapseLabels, collapsedValue, collapseGroup, ab1],
   (relative_is_share_and_sums_to_one ab1 tax0 "genus" "s1"
     (by simp [depthOf, meltedRaw, collapseLabels, collapsedValue, collapseGroup,
       ab1])).2⟩

/-- C6: both batch operations forward the caller-supplied thread count
unchanged: two workflow runners that agree at the forwarded
(`build_and_save`, argument list, thread count) triple give identical
`build` results, and two external grow routines that agree at the forwarded
argument tuple give identical `grow` results. -/
theorem threads_forwarded_unchanged {π μ γ : Type}
    (wf wfb : (BuildArg → π) → List BuildArg → Nat → μ) (bas : BuildArg → π)
    (outPath : String → String) (t : BiomTable) (taxonomy : TaxSeries)
    (models : SBMLDirectory) (rank : String) (threads : Nat) (cutoff : ℚ)
    (f g : MwGrow γ) (cmodels : CommunityModelDirectory) (medium : Medium)
    (tradeoff : ℚ)
    (hb : wf bas (buildArgs (build_spec t taxonomy models rank cutoff) outPath)
        threads =
      wfb bas (buildArgs (build_spec t taxonomy models rank cutoff) outPath)
        threads)
    (hg : f cmodels.manifest (model_folder cmodels) medium tradeoff threads =
      g cmodels.manifest (model_folder cmodels) medium tradeoff threads) :
    build wf bas outPath t taxonomy models rank threads cutoff =
      build wfb bas outPath t taxonomy models rank threads cutoff ∧
    grow f cmodels medium tradeoff threads = grow g cmodels medium tradeoff threads := by
  constructor
  · simp only [build]
    rw [hb]
  · simp only [grow]
    rw [hg]

/-- C6 witness: two workflow runners and two grow routines that agree only
at three threads make `build` and `grow` agree when called with three
threads. -/
theorem threads_forwarded_unchanged_witness :
    build wf0 bas0 (fun s => s) ab1 tax0 md1 "genus" 3 0 =
      build wf1 bas0 (fun s => s) ab1 tax0 md1 "genus" 3 0 ∧
    grow f0 cm0 [] 1 3 = grow g0 cm0 [] 1 3 :=
  threads_forwarded_unchanged wf0 wf1 bas0 (fun s => s) ab1 tax0 md1 "genus" 3 0
    f0 g0 cm0 [] 1 rfl rfl

/-- C8: when a sample's total collapsed abundance is zero (with nonnegative
counts), `build_spec` is still defined: that sample's melted rows carry a
`nan` relative abundance, and every row of that sample is excluded from the
returned specification since `nan > cutoff` is false. -/
theorem zero_depth_sample_dropped (t : BiomTable) (taxonomy : TaxSeries)
    (rank : String) (s : String) (hnn : ∀ o s2, 0 ≤ t.counts o s2)
    (hd : depthOf (meltedRaw t taxonomy rank) s = 0) :
    (∀ r ∈ melted t taxonomy rank, r.sample_id = s → r.relative = MF.nan) ∧
    (∀ (models : SBMLDirectory) (cutoff : ℚ) (r : SpecRow),
      r ∈ build_spec t taxonomy models rank cutoff → r.sample_id ≠ s) := by
  have hab : ∀ r0 ∈ meltedRaw t taxonomy rank, 0 ≤ r0.abundance := by
    intro r0 hr0
    simp only [meltedRaw] at hr0
    obtain ⟨lab, _, hr1⟩ := List.mem_flatMap.mp hr0
    obtain ⟨s2, _, rfl⟩ := List.mem_map.mp hr1
    dsimp only
    unfold collapsedValue
    apply div_nonneg
    · apply List.sum_nonneg
      intro x hx
      obtain ⟨o, _, rfl⟩ := List.mem_map.mp hx
      exact hnn o s2
    · exact Nat.cast_nonneg _
  have hzero : ∀ r0 ∈ (meltedRaw t taxonomy rank).filter (fun r => r.sample_id == s),
      r0.abundance = 0 := by
    intro r0 hr0
    exact eq_zero_of_sum_nonneg
      (((meltedRaw t taxonomy rank).filter (fun r => r.sample_id == s)).map
        (fun r => r.abundance))
      (by
        intro x hx
        obtain ⟨r1, hr1, rfl⟩ := List.mem_map.mp hx
        exact hab r1 (List.mem_of_mem_filter hr1))
      (show (((meltedRaw t taxonomy rank).filter (fun r => r.sample_id == s)).map
        (fun r => r.abundance)).sum = 0 from hd)
      r0.abundance (List.mem_map_of_mem _ hr0)
  have part1 : ∀ r ∈ melted t taxonomy rank, r.sample_id = s → r.relative = MF.nan := by
    intro r hr hs
    simp only [melted] at hr
    obtain ⟨r0, hr0, rfl⟩ := List.mem_map.mp hr
    dsimp only at hs ⊢
    have hmem : r0 ∈ (meltedRaw t taxonomy rank).filter (fun r => r.sample_id == s) :=
      List.mem_filter.mpr ⟨hr0, by simp [hs]⟩
    rw [hs, hd, hzero r0 hmem]
    simp [relDiv]
  refine ⟨part1, ?_⟩
  intro models cutoff r hr hsid
  have hgt := (List.mem_filter.mp hr).2
  have hmg := (List.mem_filter.mp hr).1
  simp only [mergedSpec] at hmg
  obtain ⟨m, _, hmg2⟩ := List.mem_flatMap.mp hmg
  obtain ⟨a, ha, hfa⟩ := List.mem_filterMap.mp hmg2
  by_cases hk : (mkey rank m == a.label) = true
  · rw [if_pos hk] at hfa
    cases hfa
    have hnan : a.relative = MF.nan := part1 a ha hsid
    rw [mergeRow] at hgt
    dsimp only at hgt
    rw [hnan] at hgt
    simp [MF.gtB] at hgt
  · rw [if_neg hk] at hfa
    cases hfa

/-- C8 witness: a concrete table whose only sample has all-zero counts
satisfies the zero-depth hypothesis, and its melted rows all carry `nan`
relative abundance. -/
theorem zero_depth_sample_dropped_witness :
    depthOf (meltedRaw abZ tax0 "genus") "s1" = 0 ∧
    (∀ r ∈ melted abZ tax0 "genus", r.sample_id = "s1" → r.relative = MF.nan) :=
  ⟨by simp [depthOf, meltedRaw, collapseLabels, collapsedValue, collapseGroup, abZ],
   (zero_depth_sample_dropped abZ tax0 "genus" "s1" (fun o s2 => le_refl 0)
     (by simp [depthOf, meltedRaw, collapseLabels, collapsedValue, collapseGroup,
       abZ])).1⟩

/-- C7: the rank label of every melted abundance row comes from its
feature's taxonomy string by stripping the `\w__` rank tags, splitting on
`;` with optional following whitespace into the `RANKS` columns, and
indexing at the chosen rank; and the merge with the model-file table is an
inner join on the rank column: the merged rows are exactly the pairs of a
collapsed model-file row and a melted abundance row with equal rank values
(so taxa without a model file at that rank are dropped).  The hypothesis
`h7` is the precondition of the `taxa.columns = RANKS` assignment: every
taxonomy string splits into exactly seven columns. -/
theorem taxonomy_join_pipeline (t : BiomTable) (taxonomy : TaxSeries)
    (models : SBMLDirectory) (rank : String)
    (hdom : ∀ o ∈ t.obsIds, (taxonomy.lookup o).isSome = true)
    (h7 : ∀ p ∈ taxonomy, (taxaParts p.2).length = RANKS.length) :
    (∀ a ∈ melted t taxonomy rank, ∃ o ∈ t.obsIds, ∃ ts : String,
      taxonomy.lookup o = some ts ∧
      a.label = ((splitTax (removeTags ts.data) false).map
        (fun l => String.mk l)).getD (RANKS.indexOf rank) "") ∧
    (∀ r : SpecRow, r ∈ mergedSpec t taxonomy models rank ↔
      ∃ m ∈ collapsedModelFiles models rank, ∃ a ∈ melted t taxonomy rank,
        mkey rank m = a.label ∧ r = mergeRow m a) := by
  constructor
  · intro a ha
    simp only [melted] at ha
    obtain ⟨r0, hr0, rfl⟩ := List.mem_map.mp ha
    simp only [meltedRaw, collapseLabels] at hr0
    obtain ⟨lab, hlab, hr1⟩ := List.mem_flatMap.mp hr0
    obtain ⟨s2, _, rfl⟩ := List.mem_map.mp hr1
    dsimp only
    obtain ⟨o, ho, rfl⟩ := List.mem_map.mp (List.mem_dedup.mp hlab)
    obtain ⟨ts, hts⟩ := Option.isSome_iff_exists.mp (hdom o ho)
    refine ⟨o, ho, ts, hts, ?_⟩
    unfold taxLabel
    rw [hts]
    rfl
  · intro r
    constructor
    · intro hr
      simp only [mergedSpec] at hr
      obtain ⟨m, hm, hr2⟩ := List.mem_flatMap.mp hr
      obtain ⟨a, ha, hfa⟩ := List.mem_filterMap.mp hr2
      by_cases hkk : (mkey rank m == a.label) = true
      · rw [if_pos hkk] at hfa
        cases hfa
        exact ⟨m, hm, a, ha, beq_iff_eq.mp hkk, rfl⟩
      · rw [if_neg hkk] at hfa
        cases hfa
    · rintro ⟨m, hm, a, ha, hkk, rfl⟩
      simp only [mergedSpec]
      refine List.mem_flatMap.mpr ⟨m, hm, List.mem_filterMap.mpr ⟨a, ha, ?_⟩⟩
      rw [if_pos (beq_iff_eq.mpr hkk)]

/-- C7 witness: a concrete table, taxonomy and model database satisfy the
domain and seven-column hypotheses, and the melted labels come from the
strip-and-split pipeline. -/
theorem taxonomy_join_pipeline_witness :
    (∀ o ∈ ab1.obsIds, (tax0.lookup o).isSome = true) ∧
    (∀ p ∈ tax0, (taxaParts p.2).length = RANKS.length) ∧
    (∀ a ∈ melted ab1 tax0 "genus", ∃ o ∈ ab1.obsIds, ∃ ts : String,
      tax0.lookup o = some ts ∧
      a.label = ((splitTax (removeTags ts.data) false).map
        (fun l => String.mk l)).getD (RANKS.indexOf "genus") "") :=
  ⟨by decide, by decide,
   (taxonomy_join_pipeline ab1 tax0 md1 "genus" (by decide) (by decide)).1⟩

/-- C10: for every rank value present among the model-database rows, the
grouped model-file table contains exactly one row for that value: the first
row of the group, with its `file` field replaced by the `"|"`-joined file
paths of the whole group, in the group's original order. -/
theorem model_groups_collapsed (models : SBMLDirectory) (rank : String) (k : String)
    (hk : k ∈ (withFiles models).map (mkey rank)) :
    ∃ r0 tl, (withFiles models).filter (fun r => mkey rank r == k) = r0 :: tl ∧
      (collapsedModelFiles models rank).filter (fun r => mkey rank r == k) =
        [⟨r0.id, r0.taxa, String.intercalate "|" ((r0 :: tl).map (fun x => x.file))⟩] := by
  have hne : ∀ k2 ∈ (withFiles models).map (mkey rank),
      ∃ r0 tl, (withFiles models).filter (fun r => mkey rank r == k2) = r0 :: tl := by
    intro k2 hk2
    obtain ⟨r, hr, rfl⟩ := List.mem_map.mp hk2
    have hrf : r ∈ (withFiles models).filter (fun r2 => mkey rank r2 == mkey rank r) :=
      List.mem_filter.mpr ⟨hr, beq_iff_eq.mpr rfl⟩
    cases hcase : (withFiles models).filter (fun r2 => mkey rank r2 == mkey rank r) with
    | nil => rw [hcase] at hrf; cases hrf
    | cons a tl => exact ⟨a, tl, rfl⟩
  have hkeymem : ∀ k2 ∈ groupKeys rank (withFiles models),
      k2 ∈ (withFiles models).map (mkey rank) := by
    intro k2 hk2
    have hmem := ((List.mergeSort_perm ((withFiles models).map (mkey rank)).dedup
      (fun a b => decide (a ≤ b))).mem_iff).mp hk2
    exact List.mem_dedup.mp hmem
  have hmkey : ∀ k2 ∈ groupKeys rank (withFiles models),
      mkey rank (reduce_group ((withFiles models).filter
        (fun r => mkey rank r == k2))) = k2 := by
    intro k2 hk2
    obtain ⟨r0, tl, heq⟩ := hne k2 (hkeymem k2 hk2)
    have hr0 : r0 ∈ (withFiles models).filter (fun r => mkey rank r == k2) := by
      rw [heq]
      exact List.mem_cons_self r0 tl
    have hr0k : mkey rank r0 = k2 := beq_iff_eq.mp (List.mem_filter.mp hr0).2
    rw [heq]
    exact hr0k
  obtain ⟨r0, tl, heq⟩ := hne k hk
  refine ⟨r0, tl, heq, ?_⟩
  have hkkeys : k ∈ groupKeys rank (withFiles models) := by
    unfold groupKeys
    exact ((List.mergeSort_perm _ _).mem_iff).mpr (List.mem_dedup.mpr hk)
  have hnd : (groupKeys rank (withFiles models)).Nodup := by
    unfold groupKeys
    exact ((List.mergeSort_perm _ _).nodup_iff).mpr (List.nodup_dedup _)
  unfold collapsedModelFiles
  rw [List.filter_map]
  have hfc : (groupKeys rank (withFiles models)).filter
      ((fun r => mkey rank r == k) ∘ (fun k2 => reduce_group
        ((withFiles models).filter (fun r => mkey rank r == k2)))) =
      (groupKeys rank (withFiles models)).filter (fun k2 => k2 == k) := by
    apply List.filter_congr
    intro k2 hk2
    simp only [Function.comp]
    rw [hmkey k2 hk2]
  rw [hfc, nodup_filter_beq hnd hkkeys]
  simp only [List.map_cons, List.map_nil]
  rw [heq]
  rfl

/-- C10 witness: in the concrete model database the genus value `G` is
present, and its group collapses to a single row with the joined file
column. -/
theorem model_groups_collapsed_witness :
    ("G" ∈ (withFiles md1).map (mkey "genus")) ∧
    (∃ r0 tl, (withFiles md1).filter (fun r => mkey "genus" r == "G") = r0 :: tl ∧
      (collapsedModelFiles md1 "genus").filter (fun r => mkey "genus" r == "G") =
        [⟨r0.id, r0.taxa, String.intercalate "|" ((r0 :: tl).map (fun x => x.file))⟩]) :=
  ⟨by decide, model_groups_collapsed md1 "genus" "G" (by decide)⟩

end Q2Micom
